import Mathlib

/-!
Verification development for the bt-service process-execution gateway.

The definitions below are a shallow embedding of the Python sources:
`src/bt_service/paths.py`, `src/bt_service/settings.py`,
`src/bt_service/process_runner.py` and the HTTP handler layer of
`src/bt_service/main.py`.

Modelling conventions:
* A filesystem path is a list of name components.  `RawPath` is a path as
  written by the caller (possibly relative, possibly containing `..` or `~`
  segments); `CanonPath` is a canonical absolute path (the output of
  `Path.resolve()`: symlinks and `..` segments eliminated).
* The operating system's path canonicalisation (`Path.expanduser` /
  `Path.resolve`) and the file-type queries (`exists`, `is_file`, `is_dir`)
  depend on the real filesystem; they are modelled as the fields of an
  abstract `FS` value passed to each operation, exactly where the Python
  code calls into `pathlib`.
* Python `str | None` settings values are `Option String`; Python truthiness
  (where `None` and `""` are both falsy) is modelled explicitly at each use.
* Process spawning (`subprocess.run`) is modelled by a `spawn` function
  supplied to `ProcessRunner.run`; it receives exactly the data the source
  passes to `subprocess.run` (command vector, working directory, child
  environment, timeout) and returns either a completed outcome or a
  timeout outcome.  `run` additionally returns the list of spawn calls it
  made, so that "no process is spawned" is expressible as that list being
  empty.
-/

deriving instance DecidableEq for Except

/-- A path component (one name between separators). -/
abbrev Name := String

/-- A path as supplied by the caller: an absolute flag plus components.
This models a `pathlib.Path` value before canonicalisation; components may
still contain `..` or `~` entries. -/
structure RawPath where
  absolute : Bool
  components : List Name
deriving DecidableEq, Repr

/-- A canonical absolute path: the component list of the result of
`Path.resolve()` (no symlinks, no `..`), rooted at `/`. -/
abbrev CanonPath := List Name

/-- Render a canonical path the way `str(path)` does. -/
def pathStr (p : CanonPath) : String :=
  "/" ++ String.intercalate "/" p

/-- Abstract filesystem: the behaviour of the `pathlib` calls the source
makes.  `expand` models `Path.expanduser`, `resolve` models
`Path.resolve()` (producing a canonical absolute path), and the three
predicates model `exists()`, `is_file()`, `is_dir()` on canonical paths. -/
structure FS where
  expand : RawPath → RawPath
  resolve : RawPath → CanonPath
  pathExists : CanonPath → Bool
  isFile : CanonPath → Bool
  isDir : CanonPath → Bool

/-- Embedding of `paths.is_within`: `candidate.relative_to(parent)` succeeds
exactly when `parent`'s components lead `candidate`'s, component by
component (pathlib compares whole components, never raw strings). -/
def is_within : CanonPath → CanonPath → Bool
  | [], _ => true
  | _ :: _, [] => false
  | p :: ps, c :: cs => p == c && is_within ps cs

/-- String-level comparison: does `p`'s character sequence lead `s`'s?
Used only to contrast with `is_within`, which works on components. -/
def strLeads (p s : String) : Bool :=
  go p.toList s.toList
where
  go : List Char → List Char → Bool
    | [], _ => true
    | _ :: _, [] => false
    | a :: as, b :: bs => a == b && go as bs

/-- Embedding of `paths.resolve_from_root`: expand the user home, then
resolve an absolute path directly, or a relative path against the project
root. -/
def resolve_from_root (fs : FS) (root : CanonPath) (path_value : RawPath) : CanonPath :=
  let path := fs.expand path_value
  if path.absolute then fs.resolve path
  else fs.resolve ⟨true, root ++ path.components⟩

/-- The candidate path formed by `ProcessRunner.resolve_executable` before
canonicalisation: an absolute input is used as-is, a relative one is joined
to the trusted bin directory. -/
def candidate_path (binDir : CanonPath) (executable : RawPath) : RawPath :=
  if executable.absolute then executable
  else ⟨true, binDir ++ executable.components⟩

/-- Typed errors raised by `ProcessRunner.resolve_executable`:
`UnsafeExecutablePathError` (the sandbox violation) and
`ExecutableNotFoundError`. -/
inductive ResolveError where
  | unsafeExecutablePath
  | executableNotFound
deriving DecidableEq, Repr

/-- Embedding of `ProcessRunner.resolve_executable`: form the candidate,
canonicalise it (`expanduser().resolve()`), reject it when its canonical
form is not inside the (already canonical) trusted bin directory, reject it
when it is not an existing regular file, and otherwise return the canonical
path. -/
def resolve_executable (fs : FS) (binDir : CanonPath) (executable : RawPath) :
    Except ResolveError CanonPath :=
  let resolved := fs.resolve (fs.expand (candidate_path binDir executable))
  if !(is_within binDir resolved) then
    .error .unsafeExecutablePath
  else if !(fs.pathExists resolved) || !(fs.isFile resolved) then
    .error .executableNotFound
  else
    .ok resolved

/-- The deployment environments accepted by the `app_env` validator in
`settings.py` (`dev`, `staging`, `prod`, `test`). -/
inductive AppEnv where
  | dev | staging | prod | test
deriving DecidableEq, Repr

/-- The slice of `settings.Settings` consumed by the components under
verification.  String-typed optional settings are `Option String`; an
explicitly set empty string is `some ""` (Python distinguishes it from
`None`, and treats both as falsy). -/
structure Settings where
  app_env : AppEnv
  tool_bin_dir : RawPath
  tool_default_timeout_seconds : Nat
  tool_strip_ansi_output : Bool
  tool_force_no_color_env : Bool
  proxy_http : Option String
  proxy_https : Option String
  proxy_no_proxy : Option String
  proxy_apply_to_process : Bool
  jira_base_url : Option String
  jira_user_email : Option String
  jira_api_token : Option String
  jira_base_url_dev : Option String
  jira_base_url_staging : Option String
  jira_base_url_prod : Option String
  jira_user_email_dev : Option String
  jira_user_email_staging : Option String
  jira_user_email_prod : Option String
  jira_api_token_dev : Option String
  jira_api_token_staging : Option String
  jira_api_token_prod : Option String

/-- Python's `a or b` on `str | None` operands: `a` wins exactly when it is
truthy (neither `None` nor the empty string). -/
def pyOr (a b : Option String) : Option String :=
  match a with
  | some s => if s.isEmpty then b else some s
  | none => b

/-- Embedding of `Settings._select_env_value`: pick the override slot named
by the active environment; `test` (and any other fall-through) selects
none. -/
def Settings._select_env_value (s : Settings) (dev staging prod : Option String) :
    Option String :=
  match s.app_env with
  | .dev => dev
  | .staging => staging
  | .prod => prod
  | .test => none

/-- Embedding of `Settings.resolved_jira_base_url`. -/
def Settings.resolved_jira_base_url (s : Settings) : Option String :=
  pyOr (s._select_env_value s.jira_base_url_dev s.jira_base_url_staging s.jira_base_url_prod)
    s.jira_base_url

/-- Embedding of `Settings.resolved_jira_user_email`. -/
def Settings.resolved_jira_user_email (s : Settings) : Option String :=
  pyOr (s._select_env_value s.jira_user_email_dev s.jira_user_email_staging s.jira_user_email_prod)
    s.jira_user_email

/-- Embedding of `Settings.resolved_jira_api_token`. -/
def Settings.resolved_jira_api_token (s : Settings) : Option String :=
  pyOr (s._select_env_value s.jira_api_token_dev s.jira_api_token_staging s.jira_api_token_prod)
    s.jira_api_token

/-- Embedding of `Settings.resolved_tool_bin_dir`: the trusted bin
directory, canonicalised against the project root. -/
def Settings.resolved_tool_bin_dir (fs : FS) (root : CanonPath) (s : Settings) : CanonPath :=
  resolve_from_root fs root s.tool_bin_dir

/-- Embedding of `Settings.proxy_env`: the ordered key/value pairs the
source inserts into its proxy dict, one upper- and one lower-case spelling
per configured (truthy) proxy value. -/
def Settings.proxy_env (s : Settings) : List (String × String) :=
  (match s.proxy_http with
   | some v => if v.isEmpty then [] else [("HTTP_PROXY", v), ("http_proxy", v)]
   | none => []) ++
  (match s.proxy_https with
   | some v => if v.isEmpty then [] else [("HTTPS_PROXY", v), ("https_proxy", v)]
   | none => []) ++
  (match s.proxy_no_proxy with
   | some v => if v.isEmpty then [] else [("NO_PROXY", v), ("no_proxy", v)]
   | none => [])

/-- A process environment: a finite map from variable names to values,
modelled as a lookup function (Python's `os.environ` / plain dicts). -/
abbrev Env := String → Option String

/-- Setting one environment variable (`env[key] = value`). -/
def envInsert (env : Env) (k v : String) : Env :=
  fun q => if q = k then some v else env q

/-- Applying a list of key/value pairs in order (`dict.update` / the
`for key, value in ...: os.environ[key] = value` loop). -/
def envUpdate (env : Env) (pairs : List (String × String)) : Env :=
  pairs.foldl (fun e kv => envInsert e kv.1 kv.2) env

/-- First-match lookup in an association list (`dict` lookup for lists whose
keys are distinct). -/
def lookupPairs : List (String × String) → String → Option String
  | [], _ => none
  | (a, b) :: ps, k => if k = a then some b else lookupPairs ps k

/-- Embedding of `main._apply_proxy_environment`: write every resolved proxy
variable into the live process environment. -/
def _apply_proxy_environment (s : Settings) (live : Env) : Env :=
  envUpdate live s.proxy_env

/-- Embedding of `ProcessRunner._build_env`: copy the live process
environment, overlay the proxy variables when `proxy_apply_to_process` is
set, then overlay the colour-suppression variables when
`tool_force_no_color_env` is set. -/
def _build_env (s : Settings) (live : Env) : Env :=
  let env := live
  let env := if s.proxy_apply_to_process then envUpdate env s.proxy_env else env
  let env :=
    if s.tool_force_no_color_env then
      envInsert (envInsert (envInsert (envInsert env "NO_COLOR" "1")
        "CLICOLOR" "0") "CLICOLOR_FORCE" "0") "TERM" "dumb"
    else env
  env

/-- The escape character `\x1B` that introduces an ANSI control sequence. -/
def escChar : Char := Char.ofNat 27

/-- Character class `0x30..0x3F` of `_ANSI_ESCAPE_RE` (`0` to `?`): the
parameter bytes of a CSI sequence. -/
def isParamByte (c : Char) : Bool := 0x30 ≤ c.toNat && c.toNat ≤ 0x3F

/-- Character class `0x20..0x2F` of `_ANSI_ESCAPE_RE` (space to `/`): the
intermediate bytes of a CSI sequence. -/
def isInterByte (c : Char) : Bool := 0x20 ≤ c.toNat && c.toNat ≤ 0x2F

/-- Character class `0x40..0x7E` of `_ANSI_ESCAPE_RE` (`@` to `~`): the
final byte of a CSI sequence. -/
def isFinalByte (c : Char) : Bool := 0x40 ≤ c.toNat && c.toNat ≤ 0x7E

/-- Matching attempt of `_ANSI_ESCAPE_RE` for the text that follows an
escape character: a `[`, then parameter bytes, then intermediate bytes,
then one final byte.  Greedy repetition is exact here because the three
character classes are pairwise disjoint, so the regex engine never
backtracks.  Returns the rest of the text after the match, or `none` when
the sequence does not match at this position. -/
def csiTail (cs : List Char) : Option (List Char) :=
  match cs with
  | '[' :: rest =>
    match (rest.dropWhile isParamByte).dropWhile isInterByte with
    | f :: r3 => if isFinalByte f then some r3 else none
    | [] => none
  | _ => none

/-- Global replacement `_ANSI_ESCAPE_RE.sub("", value)`: scan left to
right; at each escape character attempt a match, delete the matched
sequence and continue after it; every other character is kept.  This is
the specialisation of `re.sub` with an empty replacement to this
particular regex. -/
def ansiSub : List Char → List Char
  | [] => []
  | c :: rest =>
    if c = escChar then
      match h : csiTail rest with
      | some rest' => ansiSub rest'
      | none => c :: ansiSub rest
    else c :: ansiSub rest
termination_by cs => cs.length
decreasing_by
  · have hlen : rest'.length < rest.length := by
      unfold csiTail at h
      split at h
      · rename_i rest0
        split at h
        · rename_i f r3 heq
          split at h
          · injection h with h
            subst h
            have h1 : (f :: r3).length ≤ rest0.length := by
              rw [← heq]
              exact le_trans (List.dropWhile_sublist _).length_le
                (List.dropWhile_sublist _).length_le
            simp at h1 ⊢
            omega
          · exact absurd h (by simp)
        · exact absurd h (by simp)
      · exact absurd h (by simp)
    exact Nat.lt_trans hlen (Nat.lt_succ_self _)
  · exact Nat.lt_succ_self _
  · exact Nat.lt_succ_self _

/-- Embedding of `ProcessRunner._sanitize_output`: the identity when
`tool_strip_ansi_output` is off, otherwise the regex substitution applied
to the text. -/
def _sanitize_output (s : Settings) (value : String) : String :=
  if !s.tool_strip_ansi_output then value
  else String.mk (ansiSub value.toList)

/-- Embedding of `ProcessRunner._to_text`: `None` becomes the empty string
(the bytes branch is invisible here because captured output is modelled as
text). -/
def _to_text (value : Option String) : String :=
  match value with
  | none => ""
  | some s => s

/-- Embedding of `process_runner.ProcessResult`. -/
structure ProcessResult where
  command : List String
  exit_code : Int
  stdout : String
  stderr : String
  duration_ms : Nat
deriving DecidableEq, Repr

/-- The typed errors `ProcessRunner.run` can raise before spawning:
the two resolution errors propagated from `resolve_executable`, and the
`ValueError` for an invalid working directory. -/
inductive RunError where
  | unsafeExecutablePath
  | executableNotFound
  | invalidWorkingDir (cwd : CanonPath)
deriving DecidableEq, Repr

/-- Outcome of one `subprocess.run` call: either the child exited
(`returncode`, captured stdout and stderr, elapsed wall-clock
milliseconds), or `subprocess.TimeoutExpired` was raised (with the partial
output the exception carries, possibly `None`, and the elapsed wall-clock
milliseconds at the moment the exception was handled). -/
inductive SpawnOutcome where
  | completed (returncode : Int) (stdout stderr : String) (elapsedMs : Nat)
  | timedOut (stdout stderr : Option String) (elapsedMs : Nat)
deriving DecidableEq

/-- One spawn call as issued by `run`: exactly the arguments the source
passes to `subprocess.run`. -/
structure SpawnCall where
  command : List String
  cwd : CanonPath
  child_env : Env
  timeout : Nat

/-- A spawner: the behaviour of `subprocess.run` for one call. -/
abbrev SpawnFn := SpawnCall → SpawnOutcome

/-- The effective timeout computed by `run`:
`timeout_seconds or self._settings.tool_default_timeout_seconds`, with
Python truthiness (both `None` and `0` fall back to the default). -/
def effective_timeout (s : Settings) (timeout_seconds : Option Nat) : Nat :=
  match timeout_seconds with
  | none => s.tool_default_timeout_seconds
  | some n => if n = 0 then s.tool_default_timeout_seconds else n

/-- The timeout notice appended to standard error in the
`TimeoutExpired` branch of `run`. -/
def timeoutNotice (timeout : Nat) : String :=
  "\nProcess timed out after " ++ toString timeout ++ " seconds."

/-- The working directory `run` uses:
`resolve_from_root(working_dir) if working_dir else self._settings.project_root`. -/
def run_cwd (fs : FS) (root : CanonPath) (working_dir : Option RawPath) : CanonPath :=
  match working_dir with
  | some wd => resolve_from_root fs root wd
  | none => root

/-- Embedding of `ProcessRunner.run`.  Typed errors become `Except.error`;
the second component of the result lists every spawn call made (empty
exactly when no process was spawned).  The live process environment and the
spawner stand for `os.environ` and `subprocess.run`. -/
def ProcessRunner.run (fs : FS) (s : Settings) (root : CanonPath) (live : Env)
    (spawn : SpawnFn) (executable : RawPath) (args : List String)
    (timeout_seconds : Option Nat) (working_dir : Option RawPath) :
    Except RunError ProcessResult × List SpawnCall :=
  let binDir := Settings.resolved_tool_bin_dir fs root s
  match resolve_executable fs binDir executable with
  | .error .unsafeExecutablePath => (.error .unsafeExecutablePath, [])
  | .error .executableNotFound => (.error .executableNotFound, [])
  | .ok target =>
    let timeout := effective_timeout s timeout_seconds
    let cwd := run_cwd fs root working_dir
    if !(fs.pathExists cwd) || !(fs.isDir cwd) then
      (.error (.invalidWorkingDir cwd), [])
    else
      let command := pathStr target :: args
      let call : SpawnCall := ⟨command, cwd, _build_env s live, timeout⟩
      match spawn call with
      | .completed rc out err elapsed =>
        (.ok ⟨command, rc, _sanitize_output s out, _sanitize_output s err, elapsed⟩, [call])
      | .timedOut out err elapsed =>
        let stdout := _to_text out
        let stderr := _to_text err ++ timeoutNotice timeout
        (.ok ⟨command, 124, _sanitize_output s stdout, _sanitize_output s stderr, elapsed⟩,
          [call])

/-- Last-match lookup in an association list: the value the final
occurrence of `k` would leave in a dict built by inserting the pairs in
order. -/
def lookupLast : List (String × String) → String → Option String
  | [], _ => none
  | (a, b) :: ps, k =>
    match lookupLast ps k with
    | some v => some v
    | none => if k = a then some b else none

/-- An HTTP handler outcome: a successful JSON body, or an
`HTTPException` with a status code and detail message. -/
inductive HttpOutcome (α : Type) where
  | ok (body : α)
  | httpError (status : Nat) (detail : String)
deriving DecidableEq

/-- Embedding of `models.ToolExecutionResponse`; `output` is the parsed
JSON value of the tool's standard output (its Lean type is a parameter,
since JSON values are opaque to this layer). -/
structure ToolExecutionResponse (J : Type) where
  executable : String
  command : List String
  exit_code : Int
  output : J
  stderr : String
  duration_ms : Nat
deriving DecidableEq

/-- Python's `str.strip()`: drop whitespace from both ends. -/
def pyStrip (s : String) : String :=
  String.mk (((s.toList.dropWhile Char.isWhitespace).reverse.dropWhile
    Char.isWhitespace).reverse)

/-- Embedding of `main._try_parse_json`: reject empty (stripped) text,
then delegate to the JSON parser (`json.loads`, abstracted as the
`jsonParse` argument); failures carry the source's messages. -/
def _try_parse_json {J : Type} (jsonParse : String → Option J) (text : String) :
    Except String J :=
  let content := pyStrip text
  if content.isEmpty then
    .error "Tool stdout is empty. JSON output is required."
  else
    match jsonParse content with
    | some v => .ok v
    | none => .error "Tool stdout must be valid JSON."

/-- Modelled from the spec: `ToolExecutionRequest`, the request body of
`POST /tools/run`, is imported by `main.py` from `models.py` but its class
definition is absent from the sources.  Per the spec it carries the
executable name-or-path, the ordered argument list, an optional bounded
timeout in seconds, and an optional working-directory override. -/
structure ToolExecutionRequest where
  executable : RawPath
  args : List String
  timeout_seconds : Option Nat
  working_dir : Option RawPath

/-- Modelled from the spec: the request-model bound on
`timeout_seconds` ("optional timeout (seconds, bounded)"), mirroring the
explicit `Field(default=None, ge=1, le=3600)` bound that the sources give
the same field on `HciFilterRequest` and the `ge=1, le=3600` bound on the
default timeout setting.  The front end validates the request body against
the model before the handler runs. -/
def timeout_within_bounds (t : Option Nat) : Bool :=
  match t with
  | none => true
  | some n => 1 ≤ n && n ≤ 3600

/-- Render a raw path the way the caller wrote it (`payload.executable`
is echoed back verbatim in the response). -/
def rawPathStr (p : RawPath) : String :=
  (if p.absolute then "/" else "") ++ String.intercalate "/" p.components

/-- Embedding of the `run_tool` handler body in `main.py`: call
`ProcessRunner.run`, map `ExecutableNotFoundError` to 404 and
`UnsafeExecutablePathError` and `ValueError` to 400, then require the
captured standard output to parse as JSON (502 otherwise) and assemble the
response.  The spawn-call trace of `run` is passed through unchanged. -/
def run_tool {J : Type} (fs : FS) (s : Settings) (root : CanonPath) (live : Env)
    (spawn : SpawnFn) (jsonParse : String → Option J) (payload : ToolExecutionRequest) :
    HttpOutcome (ToolExecutionResponse J) × List SpawnCall :=
  match ProcessRunner.run fs s root live spawn payload.executable payload.args
      payload.timeout_seconds payload.working_dir with
  | (.error .executableNotFound, trace) =>
    (.httpError 404 "Executable not found.", trace)
  | (.error .unsafeExecutablePath, trace) =>
    (.httpError 400 "Executable must be inside the configured bin directory.", trace)
  | (.error (.invalidWorkingDir _), trace) =>
    (.httpError 400 "Invalid working directory.", trace)
  | (.ok result, trace) =>
    match _try_parse_json jsonParse result.stdout with
    | .error msg => (.httpError 502 msg, trace)
    | .ok output =>
      (.ok ⟨rawPathStr payload.executable, result.command, result.exit_code, output,
        result.stderr, result.duration_ms⟩, trace)

/-- Modelled from the spec: the `POST /tools/run` endpoint as the front
end runs it — request-model validation first (an out-of-bound
`timeout_seconds` is rejected with a client error before the handler is
entered, so `run` is never called), then the `run_tool` handler body. -/
def run_tool_endpoint {J : Type} (fs : FS) (s : Settings) (root : CanonPath) (live : Env)
    (spawn : SpawnFn) (jsonParse : String → Option J) (payload : ToolExecutionRequest) :
    HttpOutcome (ToolExecutionResponse J) × List SpawnCall :=
  if !(timeout_within_bounds payload.timeout_seconds) then
    (.httpError 422 "timeout_seconds must be between 1 and 3600.", [])
  else
    run_tool fs s root live spawn jsonParse payload

/-- Does the text contain a match of `_ANSI_ESCAPE_RE` anywhere?  This is
what "contains an escape sequence" means for the sanitizer. -/
def hasCsi : List Char → Bool
  | [] => false
  | c :: rest => (c = escChar && (csiTail rest).isSome) || hasCsi rest

/-- Lexical canonicalisation used by the concrete witness filesystem:
eliminate `.` and `..` components.  It models `Path.resolve()` on a
filesystem that contains no symlinks. -/
def lexCanon (cs : List Name) : List Name :=
  go [] cs
where
  go : List Name → List Name → List Name
    | acc, [] => acc.reverse
    | acc, c :: rest =>
      if c = ".." then go acc.tail rest
      else if c = "." then go acc rest
      else go (c :: acc) rest

/-- Regular files of the concrete witness world. -/
def sampleFiles : List CanonPath :=
  [["root", "proj", "tools", "bin", "echo_args"],
   ["root", "proj", "tools", "bin", "sleepy"],
   ["etc", "hosts"]]

/-- Directories of the concrete witness world. -/
def sampleDirs : List CanonPath :=
  [["root", "proj"], ["root", "proj", "tools"], ["root", "proj", "tools", "bin"],
   ["opt", "outside"], ["etc"]]

/-- The concrete witness filesystem: no symlinks, no user-home entries, the
files and directories above. -/
def sampleFS : FS where
  expand := id
  resolve := fun p => lexCanon p.components
  pathExists := fun p => sampleFiles.contains p || sampleDirs.contains p
  isFile := fun p => sampleFiles.contains p
  isDir := fun p => sampleDirs.contains p

/-- The concrete witness project root. -/
def sampleRoot : CanonPath := ["root", "proj"]

/-- The concrete witness live process environment (empty). -/
def sampleLive : Env := fun _ => none

/-- Concrete witness settings. -/
def sampleSettings : Settings where
  app_env := .staging
  tool_bin_dir := ⟨false, ["tools", "bin"]⟩
  tool_default_timeout_seconds := 60
  tool_strip_ansi_output := true
  tool_force_no_color_env := true
  proxy_http := some "http://proxy.internal:3128"
  proxy_https := none
  proxy_no_proxy := some "localhost"
  proxy_apply_to_process := false
  jira_base_url := some "https://fallback.example.com"
  jira_user_email := some "fallback@example.com"
  jira_api_token := some "fallback-token"
  jira_base_url_dev := none
  jira_base_url_staging := some "https://staging.example.com"
  jira_base_url_prod := none
  jira_user_email_dev := none
  jira_user_email_staging := some "staging@example.com"
  jira_user_email_prod := none
  jira_api_token_dev := none
  jira_api_token_staging := some "staging-token"
  jira_api_token_prod := none

/-- A spawner whose child exits immediately with code 0 and empty output. -/
def emptySpawn : SpawnFn := fun _ => .completed 0 "" "" 3

/-- A spawner whose child prints a small JSON document and exits 0. -/
def jsonSpawn : SpawnFn := fun _ => .completed 0 "[1, 2]" "" 5

/-- A spawner whose child never finishes: `subprocess.run` raises
`TimeoutExpired` after the requested timeout, here observed 20 ms past
the deadline, with partial output captured. -/
def sleepySpawn : SpawnFn := fun call =>
  .timedOut (some "partial out") none (1000 * call.timeout + 20)

/-! ## Shared lemmas -/

theorem pyOr_some_of_ne {v : String} (b : Option String) (h : v ≠ "") :
    pyOr (some v) b = some v := by
  simp [pyOr, String.isEmpty_iff, h]

theorem pyOr_falsy {a : Option String} (b : Option String)
    (h : a = none ∨ a = some "") : pyOr a b = b := by
  rcases h with h | h <;> subst h <;> rfl

/-! ## Claims -/

/-- C7: for each per-environment-overridable Jira setting (base URL, user
email, API token) and every active environment, the resolved value is the
environment-specific override when present and non-empty, is the base
value when the override is absent or empty (in particular for the `test`
environment, which has no override slot), and is otherwise whatever the
base slot holds (absent when it, too, is unset); with active environment
`staging` and both a base and a staging token set, the resolved token is
the staging one. -/
theorem claim_C7 (s : Settings) :
    (∀ v : String, v ≠ "" →
      (s._select_env_value s.jira_base_url_dev s.jira_base_url_staging s.jira_base_url_prod
          = some v → s.resolved_jira_base_url = some v)
      ∧ (s._select_env_value s.jira_user_email_dev s.jira_user_email_staging
            s.jira_user_email_prod = some v → s.resolved_jira_user_email = some v)
      ∧ (s._select_env_value s.jira_api_token_dev s.jira_api_token_staging
            s.jira_api_token_prod = some v → s.resolved_jira_api_token = some v))
    ∧ ((s._select_env_value s.jira_base_url_dev s.jira_base_url_staging s.jira_base_url_prod
          = none ∨
        s._select_env_value s.jira_base_url_dev s.jira_base_url_staging s.jira_base_url_prod
          = some "") → s.resolved_jira_base_url = s.jira_base_url)
    ∧ ((s._select_env_value s.jira_user_email_dev s.jira_user_email_staging
          s.jira_user_email_prod = none ∨
        s._select_env_value s.jira_user_email_dev s.jira_user_email_staging
          s.jira_user_email_prod = some "") →
        s.resolved_jira_user_email = s.jira_user_email)
    ∧ ((s._select_env_value s.jira_api_token_dev s.jira_api_token_staging
          s.jira_api_token_prod = none ∨
        s._select_env_value s.jira_api_token_dev s.jira_api_token_staging
          s.jira_api_token_prod = some "") →
        s.resolved_jira_api_token = s.jira_api_token)
    ∧ (s.app_env = .test → s.resolved_jira_api_token = s.jira_api_token)
    ∧ (s.app_env = .staging → ∀ t : String, t ≠ "" → s.jira_api_token_staging = some t →
        s.resolved_jira_api_token = some t) := by
  refine ⟨?_, ?_, ?_, ?_, ?_, ?_⟩
  · intro v hv
    refine ⟨?_, ?_, ?_⟩ <;> intro h
    · rw [Settings.resolved_jira_base_url, h, pyOr_some_of_ne _ hv]
    · rw [Settings.resolved_jira_user_email, h, pyOr_some_of_ne _ hv]
    · rw [Settings.resolved_jira_api_token, h, pyOr_some_of_ne _ hv]
  · intro h
    rw [Settings.resolved_jira_base_url, pyOr_falsy _ h]
  · intro h
    rw [Settings.resolved_jira_user_email, pyOr_falsy _ h]
  · intro h
    rw [Settings.resolved_jira_api_token, pyOr_falsy _ h]
  · intro h
    rw [Settings.resolved_jira_api_token]
    rw [show s._select_env_value s.jira_api_token_dev s.jira_api_token_staging
        s.jira_api_token_prod = none by rw [Settings._select_env_value, h]]
    exact pyOr_falsy _ (Or.inl rfl)
  · intro h t ht htok
    rw [Settings.resolved_jira_api_token]
    rw [show s._select_env_value s.jira_api_token_dev s.jira_api_token_staging
        s.jira_api_token_prod = some t by rw [Settings._select_env_value, h, htok]]
    exact pyOr_some_of_ne _ ht

/-- Witness for C7: the staging scenario on the concrete sample settings. -/
theorem claim_C7_witness :
    sampleSettings.resolved_jira_api_token = some "staging-token" :=
  (claim_C7 sampleSettings).2.2.2.2.2 rfl "staging-token" (by decide) rfl

/-- C1: whenever the canonical (symlink- and dot-dot-resolved) form of the
candidate executable path lies outside the trusted bin directory — for
relative and absolute inputs alike — `resolve_executable` raises the
sandbox violation (`UnsafeExecutablePathError`), `run` propagates it and
spawns no process; an absolute input skips the bin-directory join but
reaches the same containment check, and the containment check compares
canonical forms component by component, not character strings (a path
whose rendered string extends the trusted directory's string is still
rejected). -/
theorem claim_C1 (fs : FS) (s : Settings) (root : CanonPath) (live : Env) (spawn : SpawnFn)
    (executable : RawPath) (args : List String) (timeout_seconds : Option Nat)
    (working_dir : Option RawPath)
    (hout : is_within (Settings.resolved_tool_bin_dir fs root s)
        (fs.resolve (fs.expand (candidate_path (Settings.resolved_tool_bin_dir fs root s)
          executable))) = false) :
    resolve_executable fs (Settings.resolved_tool_bin_dir fs root s) executable
        = .error .unsafeExecutablePath
    ∧ ProcessRunner.run fs s root live spawn executable args timeout_seconds working_dir
        = (.error .unsafeExecutablePath, [])
    ∧ (∀ p : RawPath, p.absolute = true →
        candidate_path (Settings.resolved_tool_bin_dir fs root s) p = p)
    ∧ is_within ["tools", "bin"] ["tools", "binevil"] = false
    ∧ strLeads (pathStr ["tools", "bin"]) (pathStr ["tools", "binevil"]) = true := by
  have hres : resolve_executable fs (Settings.resolved_tool_bin_dir fs root s) executable
      = .error .unsafeExecutablePath := by
    rw [resolve_executable]
    simp [hout]
  refine ⟨hres, ?_, ?_, by decide, by decide⟩
  · simp only [ProcessRunner.run, hres]
  · intro p hp
    simp [candidate_path, hp]

/-- Witness for C1: the `../../etc/hosts` traversal attempt on the
concrete sample world is rejected and nothing is spawned. -/
theorem claim_C1_witness :
    ProcessRunner.run sampleFS sampleSettings sampleRoot sampleLive emptySpawn
        ⟨false, ["..", "..", "etc", "hosts"]⟩ [] none none
      = (.error .unsafeExecutablePath, []) :=
  (claim_C1 sampleFS sampleSettings sampleRoot sampleLive emptySpawn
      ⟨false, ["..", "..", "etc", "hosts"]⟩ [] none none (by decide)).2.1

/-- C8: when the canonical candidate path lies inside the trusted bin
directory but is missing or not a regular file, `resolve_executable`
raises `ExecutableNotFoundError`; when it is a present regular file inside
the trusted directory, resolution succeeds and returns exactly that
canonical absolute path. -/
theorem claim_C8 (fs : FS) (binDir : CanonPath) (executable : RawPath)
    (hin : is_within binDir (fs.resolve (fs.expand (candidate_path binDir executable)))
      = true) :
    ((fs.pathExists (fs.resolve (fs.expand (candidate_path binDir executable))) = false ∨
      fs.isFile (fs.resolve (fs.expand (candidate_path binDir executable))) = false) →
      resolve_executable fs binDir executable = .error .executableNotFound)
    ∧ (fs.pathExists (fs.resolve (fs.expand (candidate_path binDir executable))) = true →
       fs.isFile (fs.resolve (fs.expand (candidate_path binDir executable))) = true →
       resolve_executable fs binDir executable
         = .ok (fs.resolve (fs.expand (candidate_path binDir executable)))) := by
  constructor
  · intro h
    rw [resolve_executable]
    rcases h with h | h <;> simp [hin, h]
  · intro h1 h2
    rw [resolve_executable]
    simp [hin, h1, h2]

/-- Witness for C8: in the sample world, the missing tool `nope` yields
`ExecutableNotFoundError` and the present tool `echo_args` resolves to its
canonical path under the bin directory. -/
theorem claim_C8_witness :
    resolve_executable sampleFS ["root", "proj", "tools", "bin"] ⟨false, ["nope"]⟩
        = .error .executableNotFound
    ∧ resolve_executable sampleFS ["root", "proj", "tools", "bin"] ⟨false, ["echo_args"]⟩
        = .ok ["root", "proj", "tools", "bin", "echo_args"] :=
  ⟨(claim_C8 sampleFS ["root", "proj", "tools", "bin"] ⟨false, ["nope"]⟩ (by decide)).1
      (by decide),
   (claim_C8 sampleFS ["root", "proj", "tools", "bin"] ⟨false, ["echo_args"]⟩ (by decide)).2
      (by decide) (by decide)⟩

/-- C2: whenever `run` returns a result, the command vector it passed to
the spawned process — and the one reported in `ProcessResult.command` — is
exactly the resolved canonical absolute executable path followed by the
request's arguments in their original order, as a discrete vector (the
embedding passes the vector itself to the spawner; no string is ever
formed from it). -/
theorem claim_C2 (fs : FS) (s : Settings) (root : CanonPath) (live : Env) (spawn : SpawnFn)
    (executable : RawPath) (args : List String) (timeout_seconds : Option Nat)
    (working_dir : Option RawPath) (target : CanonPath) (r : ProcessResult)
    (hres : resolve_executable fs (Settings.resolved_tool_bin_dir fs root s) executable
      = .ok target)
    (hok : (ProcessRunner.run fs s root live spawn executable args timeout_seconds
      working_dir).1 = .ok r) :
    r.command = pathStr target :: args
    ∧ (ProcessRunner.run fs s root live spawn executable args timeout_seconds
        working_dir).2.map SpawnCall.command = [pathStr target :: args] := by
  simp only [ProcessRunner.run, hres] at hok ⊢
  by_cases hcwd : (!fs.pathExists (run_cwd fs root working_dir)
      || !fs.isDir (run_cwd fs root working_dir)) = true
  · rw [if_pos hcwd] at hok
    simp at hok
  · rw [if_neg hcwd] at hok ⊢
    rcases hspawn : spawn ⟨pathStr target :: args, run_cwd fs root working_dir,
        _build_env s live, effective_timeout s timeout_seconds⟩ with
      ⟨rc, out, err, elapsed⟩ | ⟨out, err, elapsed⟩ <;>
    · rw [hspawn] at hok
      simp at hok ⊢
      simp [← hok]

unseal ansiSub in
/-- Witness for C2: the concrete `echo_args` scenario — the trusted
directory holds `echo_args`, the request is `executable = "echo_args"`,
`args = ["a", "b"]`, and the executed command vector is the canonical
path followed by `"a"`, `"b"`, with exit code 0. -/
theorem claim_C2_witness :
    (⟨["/root/proj/tools/bin/echo_args", "a", "b"], 0, "", "", 3⟩ :
        ProcessResult).command = ["/root/proj/tools/bin/echo_args", "a", "b"]
    ∧ (ProcessRunner.run sampleFS sampleSettings sampleRoot sampleLive emptySpawn
        ⟨false, ["echo_args"]⟩ ["a", "b"] none none).2.map SpawnCall.command
      = [["/root/proj/tools/bin/echo_args", "a", "b"]] :=
  claim_C2 sampleFS sampleSettings sampleRoot sampleLive emptySpawn
    ⟨false, ["echo_args"]⟩ ["a", "b"] none none
    ["root", "proj", "tools", "bin", "echo_args"]
    ⟨["/root/proj/tools/bin/echo_args", "a", "b"], 0, "", "", 3⟩
    (by decide) (by decide)

/-- C9: given a resolvable executable, `run` accepts a working-directory
override exactly when its resolved path exists and is a directory, and
raises `ValueError` (the invalid-working-directory error) otherwise; no
containment check is applied to the override — the acceptance condition
depends only on existence and directory-ness, and an absolute override
resolves with no reference to the trusted project root, so it may point
anywhere on the filesystem. -/
theorem claim_C9 (fs : FS) (s : Settings) (root : CanonPath) (live : Env) (spawn : SpawnFn)
    (executable : RawPath) (args : List String) (timeout_seconds : Option Nat)
    (wd : RawPath) (target : CanonPath)
    (hres : resolve_executable fs (Settings.resolved_tool_bin_dir fs root s) executable
      = .ok target) :
    (fs.pathExists (resolve_from_root fs root wd) = true →
     fs.isDir (resolve_from_root fs root wd) = true →
     ∃ r, (ProcessRunner.run fs s root live spawn executable args timeout_seconds
       (some wd)).1 = .ok r)
    ∧ ((fs.pathExists (resolve_from_root fs root wd) = false ∨
        fs.isDir (resolve_from_root fs root wd) = false) →
       ProcessRunner.run fs s root live spawn executable args timeout_seconds (some wd)
         = (.error (.invalidWorkingDir (resolve_from_root fs root wd)), []))
    ∧ ((fs.expand wd).absolute = true →
       resolve_from_root fs root wd = fs.resolve (fs.expand wd)) := by
  refine ⟨?_, ?_, ?_⟩
  · intro h1 h2
    simp only [ProcessRunner.run, hres, run_cwd, h1, h2]
    rcases spawn ⟨pathStr target :: args, resolve_from_root fs root wd,
        _build_env s live, effective_timeout s timeout_seconds⟩ with
      ⟨rc, out, err, elapsed⟩ | ⟨out, err, elapsed⟩ <;> simp
  · intro h
    simp only [ProcessRunner.run, hres, run_cwd]
    rcases h with h | h <;> simp [h]
  · intro h
    simp [resolve_from_root, h]

unseal ansiSub in
/-- Witness for C9: an absolute override pointing outside both the project
root and the bin directory is accepted, because only existence and
directory-ness are checked. -/
theorem claim_C9_witness :
    (∃ r, (ProcessRunner.run sampleFS sampleSettings sampleRoot sampleLive emptySpawn
        ⟨false, ["echo_args"]⟩ [] none (some ⟨true, ["opt", "outside"]⟩)).1 = .ok r)
    ∧ is_within sampleRoot (resolve_from_root sampleFS sampleRoot ⟨true, ["opt", "outside"]⟩)
      = false :=
  ⟨(claim_C9 sampleFS sampleSettings sampleRoot sampleLive emptySpawn
      ⟨false, ["echo_args"]⟩ [] none ⟨true, ["opt", "outside"]⟩
      ["root", "proj", "tools", "bin", "echo_args"] (by decide)).1 (by decide) (by decide),
   by decide⟩

/-- C5: the effective timeout `run` hands to the spawned process equals
the request-supplied timeout when one is present and inside the configured
1..3600 bound, and the configured default when none is supplied; a request
timeout outside the bound never reaches `run` — request-model validation
rejects it with a client error and no process is spawned (the
request-model bound is modelled from the spec, since `ToolExecutionRequest`
is absent from the sources). -/
theorem claim_C5 {J : Type} (jsonParse : String → Option J) (s : Settings) :
    (∀ n : Nat, 1 ≤ n → n ≤ 3600 → effective_timeout s (some n) = n)
    ∧ effective_timeout s none = s.tool_default_timeout_seconds
    ∧ (∀ (fs : FS) (root : CanonPath) (live : Env) (spawn : SpawnFn) (executable : RawPath)
        (args : List String) (timeout_seconds : Option Nat) (working_dir : Option RawPath)
        (call : SpawnCall),
        call ∈ (ProcessRunner.run fs s root live spawn executable args timeout_seconds
          working_dir).2 → call.timeout = effective_timeout s timeout_seconds)
    ∧ (∀ (fs : FS) (root : CanonPath) (live : Env) (spawn : SpawnFn)
        (p : ToolExecutionRequest) (n : Nat),
        p.timeout_seconds = some n → (n < 1 ∨ 3600 < n) →
        run_tool_endpoint fs s root live spawn jsonParse p
          = (.httpError 422 "timeout_seconds must be between 1 and 3600.", [])) := by
  refine ⟨?_, rfl, ?_, ?_⟩
  · intro n h1 h2
    simp [effective_timeout, show n ≠ 0 by omega]
  · intro fs root live spawn executable args timeout_seconds working_dir call hmem
    simp only [ProcessRunner.run] at hmem
    rcases hres : resolve_executable fs (Settings.resolved_tool_bin_dir fs root s)
        executable with e | target
    · rcases e <;> simp only [hres] at hmem <;> simp at hmem
    · simp only [hres] at hmem
      split at hmem
      · simp at hmem
      · rcases hsp : spawn ⟨pathStr target :: args, run_cwd fs root working_dir,
            _build_env s live, effective_timeout s timeout_seconds⟩ with
          ⟨rc, out, err, el⟩ | ⟨out, err, el⟩ <;>
          rw [hsp] at hmem <;> simp at hmem <;> rw [hmem]
  · intro fs root live spawn p n hp hout
    have hb : timeout_within_bounds p.timeout_seconds = false := by
      rw [hp, timeout_within_bounds]
      simp only [Bool.and_eq_false_iff, decide_eq_false_iff_not]
      omega
    simp [run_tool_endpoint, hb]

/-- Witness for C5: an in-bound request timeout of 30 s is used as-is, an
absent one falls back to the configured 60 s default, and an out-of-bound
5000 s request is rejected with a client error before anything runs. -/
theorem claim_C5_witness :
    effective_timeout sampleSettings (some 30) = 30
    ∧ effective_timeout sampleSettings none = 60
    ∧ run_tool_endpoint sampleFS sampleSettings sampleRoot sampleLive emptySpawn
        (fun _ => (none : Option Unit)) ⟨⟨false, ["echo_args"]⟩, [], some 5000, none⟩
      = (.httpError 422 "timeout_seconds must be between 1 and 3600.", []) :=
  ⟨(claim_C5 (fun _ => (none : Option Unit)) sampleSettings).1 30 (by decide) (by decide),
   (claim_C5 (fun _ => (none : Option Unit)) sampleSettings).2.1,
   (claim_C5 (fun _ => (none : Option Unit)) sampleSettings).2.2.2 sampleFS sampleRoot
     sampleLive emptySpawn ⟨⟨false, ["echo_args"]⟩, [], some 5000, none⟩ 5000 rfl
     (by decide)⟩

theorem envUpdate_eq_lookupLast (ps : List (String × String)) (env : Env) (k : String) :
    envUpdate env ps k =
      match lookupLast ps k with
      | some v => some v
      | none => env k := by
  induction ps generalizing env with
  | nil => rfl
  | cons p ps ih =>
    show envUpdate (envInsert env p.1 p.2) ps k = _
    rw [ih, lookupLast]
    rcases hps : lookupLast ps k with _ | v
    · by_cases hk : k = p.1 <;> simp [envInsert, hk]
    · rfl

theorem proxy_env_key_facts (s : Settings) {k v : String}
    (h : lookupPairs s.proxy_env k = some v) :
    lookupLast s.proxy_env k = some v ∧
    k ≠ "NO_COLOR" ∧ k ≠ "CLICOLOR" ∧ k ≠ "CLICOLOR_FORCE" ∧ k ≠ "TERM" := by
  rw [Settings.proxy_env] at h ⊢
  rcases hh1 : s.proxy_http with _ | a <;> rw [hh1] at h <;>
    rcases hh2 : s.proxy_https with _ | b <;> rw [hh2] at h <;>
    rcases hh3 : s.proxy_no_proxy with _ | c <;> rw [hh3] at h <;>
    simp only [List.nil_append, List.append_nil] at h ⊢ <;>
    first
    | (simp [lookupPairs] at h; done)
    | (split_ifs at h ⊢ <;>
       first
       | (simp [lookupPairs] at h; done)
       | (simp only [lookupPairs, lookupLast, List.nil_append, List.append_nil] at h ⊢ <;>
          split_ifs at h ⊢ <;> simp_all))

/-- C10: `_apply_proxy_environment` (run once at startup) writes every
resolved proxy variable into the live process environment, and because
`_build_env` starts from a copy of that live environment, every spawned
child's environment carries each configured proxy variable — whatever the
value of `proxy_apply_to_process` (the colour-suppression overlay touches
only its own four variables, which are never proxy keys). -/
theorem claim_C10 (s : Settings) (live : Env) (k v : String)
    (h : lookupPairs s.proxy_env k = some v) :
    _build_env s (_apply_proxy_environment s live) k = some v := by
  obtain ⟨hlast, h1, h2, h3, h4⟩ := proxy_env_key_facts s h
  have hlive : _apply_proxy_environment s live k = some v := by
    rw [_apply_proxy_environment, envUpdate_eq_lookupLast, hlast]
  have hupd : envUpdate (_apply_proxy_environment s live) s.proxy_env k = some v := by
    rw [envUpdate_eq_lookupLast, hlast]
  rw [_build_env]
  by_cases hp : s.proxy_apply_to_process = true <;>
    by_cases hc : s.tool_force_no_color_env = true <;>
    simp only [hp, hc, if_true, if_false, Bool.false_eq_true, ite_true, ite_false] <;>
    simp [envInsert, h1, h2, h3, h4, hupd, hlive]

unseal ansiSub in
/-- Witness for C10: on the sample settings — whose
`proxy_apply_to_process` is `false` — a child spawned after startup still
sees the configured `HTTP_PROXY`. -/
theorem claim_C10_witness :
    _build_env sampleSettings (_apply_proxy_environment sampleSettings sampleLive)
      "HTTP_PROXY" = some "http://proxy.internal:3128" :=
  claim_C10 sampleSettings sampleLive "HTTP_PROXY" "http://proxy.internal:3128" (by decide)

theorem csiTail_cons_ne {c : Char} (rest : List Char) (hc : c ≠ '[') :
    csiTail (c :: rest) = none := by
  unfold csiTail
  split <;> simp_all

theorem csiTail_sublist {cs r : List Char} (h : csiTail cs = some r) : r.Sublist cs := by
  unfold csiTail at h
  split at h
  · rename_i rest
    split at h
    · rename_i f r3 heq
      split at h
      · injection h with h
        subst h
        have h1 : (f :: r3).Sublist rest := by
          rw [← heq]
          exact ((List.dropWhile_sublist _).trans (List.dropWhile_sublist _))
        exact ((List.sublist_cons_self f r3).trans h1).trans (List.sublist_cons_self _ _)
      · exact absurd h (by simp)
    · exact absurd h (by simp)
  · exact absurd h (by simp)

theorem dropWhile_append_blocked (p : Char → Bool) (r b : List Char)
    (hb : ∀ c, b.head? = some c → p c = false) :
    (r ++ b).dropWhile p = r.dropWhile p ++ b := by
  induction r with
  | nil =>
    simp only [List.nil_append, List.dropWhile]
    cases b with
    | nil => rfl
    | cons c cs => simp [List.dropWhile, hb c rfl]
  | cons a r ih =>
    by_cases ha : p a = true <;>
      simp [List.dropWhile, ha, ih]

theorem csiTail_nil : csiTail [] = none := rfl

theorem csiTail_cons_bracket (rest : List Char) :
    csiTail ('[' :: rest) =
      match (rest.dropWhile isParamByte).dropWhile isInterByte with
      | f :: r3 => if isFinalByte f then some r3 else none
      | [] => none := rfl

theorem csiTail_append_blocked (xs b : List Char)
    (hh : ∀ c, b.head? = some c → c ≠ '[' ∧ isParamByte c = false ∧ isInterByte c = false ∧
      isFinalByte c = false) :
    csiTail (xs ++ b) = (csiTail xs).map (· ++ b) := by
  cases xs with
  | nil =>
    simp only [List.nil_append, csiTail_nil]
    cases b with
    | nil => rfl
    | cons c cs =>
      rw [csiTail_cons_ne cs (hh c rfl).1]
      rfl
  | cons x xs =>
    by_cases hx : x = '['
    · subst hx
      rw [List.cons_append, csiTail_cons_bracket, csiTail_cons_bracket,
        dropWhile_append_blocked isParamByte xs b (fun c hc => (hh c hc).2.1),
        dropWhile_append_blocked isInterByte (xs.dropWhile isParamByte) b
          (fun c hc => (hh c hc).2.2.1)]
      rcases hE : (xs.dropWhile isParamByte).dropWhile isInterByte with _ | ⟨f, r3⟩
      · simp only [List.nil_append]
        cases b with
        | nil => rfl
        | cons c cs => simp [(hh c rfl).2.2.2]
      · simp only [List.cons_append]
        by_cases hf : isFinalByte f = true <;> simp [hf]
    · rw [List.cons_append, csiTail_cons_ne _ hx, csiTail_cons_ne _ hx]
      rfl

theorem ansiSub_nil : ansiSub [] = [] := by simp [ansiSub]

theorem ansiSub_cons_ne (c : Char) (rest : List Char) (hc : c ≠ escChar) :
    ansiSub (c :: rest) = c :: ansiSub rest := by
  conv_lhs => rw [ansiSub]
  simp [hc]

theorem ansiSub_cons_esc_some {rest r : List Char} (hcs : csiTail rest = some r) :
    ansiSub (escChar :: rest) = ansiSub r := by
  conv_lhs => rw [ansiSub]
  rw [if_pos rfl]
  split
  · rename_i r' h'
    rw [hcs] at h'
    injection h' with h'
    rw [h']
  · rename_i h'
    rw [hcs] at h'
    cases h'

theorem ansiSub_cons_esc_none {rest : List Char} (hcs : csiTail rest = none) :
    ansiSub (escChar :: rest) = escChar :: ansiSub rest := by
  conv_lhs => rw [ansiSub]
  rw [if_pos rfl]
  split
  · rename_i r' h'
    rw [hcs] at h'
    cases h'
  · rfl

theorem ansiSub_of_escFree {x : List Char} (h : ∀ c ∈ x, c ≠ escChar) :
    ansiSub x = x := by
  induction x with
  | nil => exact ansiSub_nil
  | cons c rest ih =>
    rw [ansiSub_cons_ne c rest (h c (List.mem_cons_self c rest)),
      ih (fun d hd => h d (List.mem_cons_of_mem c hd))]

theorem ansiSub_append_blocked {a b : List Char}
    (hb : ∀ c ∈ b, c ≠ escChar)
    (hh : ∀ c, b.head? = some c → c ≠ '[' ∧ isParamByte c = false ∧ isInterByte c = false ∧
      isFinalByte c = false) :
    ansiSub (a ++ b) = ansiSub a ++ b := by
  have main : ∀ (n : Nat) (a : List Char), a.length ≤ n → ansiSub (a ++ b) = ansiSub a ++ b := by
    intro n
    induction n with
    | zero =>
      intro a ha
      have hanil : a = [] := by cases a <;> simp_all
      subst hanil
      rw [List.nil_append, ansiSub_nil, List.nil_append, ansiSub_of_escFree hb]
    | succ n ih =>
      intro a ha
      cases a with
      | nil =>
        rw [List.nil_append, ansiSub_nil, List.nil_append, ansiSub_of_escFree hb]
      | cons c rest =>
        rw [List.cons_append]
        by_cases hc : c = escChar
        · subst hc
          rcases hcs : csiTail rest with _ | r
          · have : csiTail (rest ++ b) = none := by
              rw [csiTail_append_blocked rest b hh, hcs]
              rfl
            rw [ansiSub_cons_esc_none this, ansiSub_cons_esc_none hcs, List.cons_append]
            congr 1
            exact ih rest (Nat.le_of_succ_le_succ ha)
          · have hr : csiTail (rest ++ b) = some (r ++ b) := by
              rw [csiTail_append_blocked rest b hh, hcs]
              rfl
            rw [ansiSub_cons_esc_some hr, ansiSub_cons_esc_some hcs]
            exact ih r (Nat.le_trans (csiTail_sublist hcs).length_le
              (Nat.le_of_succ_le_succ ha))
        · rw [ansiSub_cons_ne c _ hc, ansiSub_cons_ne c _ hc, List.cons_append]
          congr 1
          exact ih rest (Nat.le_of_succ_le_succ ha)
  exact main a.length a (Nat.le_refl _)

theorem hasCsi_false_ansiSub {x : List Char} (h : hasCsi x = false) : ansiSub x = x := by
  induction x with
  | nil => exact ansiSub_nil
  | cons c rest ih =>
    rw [hasCsi] at h
    simp only [Bool.or_eq_false_iff, Bool.and_eq_false_iff] at h
    obtain ⟨h1, h2⟩ := h
    by_cases hc : c = escChar
    · rcases h1 with h1 | h1
      · simp only [decide_eq_false_iff_not] at h1
        exact absurd hc h1
      · have hnone : csiTail rest = none := by
          rcases hcs : csiTail rest with _ | r
          · rfl
          · rw [hcs] at h1
            simp at h1
        rw [hc, ansiSub_cons_esc_none hnone, ih h2]
    · rw [ansiSub_cons_ne c rest hc, ih h2]

theorem digitChar_ne_esc (n : Nat) : Nat.digitChar n ≠ escChar := by
  rcases Nat.lt_or_ge n 16 with h | h
  · interval_cases n <;> decide
  · have hstar : Nat.digitChar n = '*' := by
      have e0 : n ≠ 0 := by omega
      have e1 : n ≠ 1 := by omega
      have e2 : n ≠ 2 := by omega
      have e3 : n ≠ 3 := by omega
      have e4 : n ≠ 4 := by omega
      have e5 : n ≠ 5 := by omega
      have e6 : n ≠ 6 := by omega
      have e7 : n ≠ 7 := by omega
      have e8 : n ≠ 8 := by omega
      have e9 : n ≠ 9 := by omega
      have ea : n ≠ 10 := by omega
      have eb : n ≠ 11 := by omega
      have ec : n ≠ 12 := by omega
      have ed : n ≠ 13 := by omega
      have ee : n ≠ 14 := by omega
      have ef : n ≠ 15 := by omega
      unfold Nat.digitChar
      simp only [e0, e1, e2, e3, e4, e5, e6, e7, e8, e9, ea, eb, ec, ed, ee, ef, if_false,
        ite_false]
    rw [hstar]
    decide

theorem toDigitsCore_escFree (b : Nat) :
    ∀ (fuel n : Nat) (acc : List Char), (∀ c ∈ acc, c ≠ escChar) →
      ∀ c ∈ Nat.toDigitsCore b fuel n acc, c ≠ escChar := by
  intro fuel
  induction fuel with
  | zero => intro n acc hacc c hc; exact hacc c hc
  | succ f ih =>
    intro n acc hacc c hc
    rw [Nat.toDigitsCore] at hc
    have hcons : ∀ d ∈ Nat.digitChar (n % b) :: acc, d ≠ escChar := by
      intro d hd
      rcases List.mem_cons.mp hd with hd | hd
      · rw [hd]; exact digitChar_ne_esc _
      · exact hacc d hd
    split at hc
    · exact hcons c hc
    · exact ih (n / b) _ hcons c hc

theorem natRepr_escFree (n : Nat) : ∀ c ∈ (Nat.repr n).toList, c ≠ escChar := by
  rw [Nat.repr, Nat.toDigits]
  exact toDigitsCore_escFree 10 (n + 1) n [] (by simp)

theorem timeoutNotice_escFree (t : Nat) : ∀ c ∈ (timeoutNotice t).toList, c ≠ escChar := by
  intro c hc
  rw [timeoutNotice] at hc
  have hsplit : ("\nProcess timed out after " ++ toString t ++ " seconds.").toList
      = ("\nProcess timed out after ").toList ++ (toString t).toList
        ++ (" seconds.").toList := by
    show (("\nProcess timed out after " ++ toString t) ++ " seconds.").data = _
    rw [String.data_append, String.data_append]
    rfl
  rw [hsplit] at hc
  have lit1 : ∀ d ∈ ("\nProcess timed out after ").toList, d ≠ escChar := by decide
  have lit2 : ∀ d ∈ (" seconds.").toList, d ≠ escChar := by decide
  rcases List.mem_append.mp hc with hc | hc
  · rcases List.mem_append.mp hc with hc | hc
    · exact lit1 c hc
    · exact natRepr_escFree t c hc
  · exact lit2 c hc

theorem timeoutNotice_head (t : Nat) : (timeoutNotice t).toList.head? = some '\n' := by
  rw [timeoutNotice]
  show ((("\nProcess timed out after " ++ toString t) ++ " seconds.").data).head? = _
  rw [String.data_append, String.data_append]
  rfl

theorem timeoutNotice_blocked (t : Nat) :
    ∀ c, (timeoutNotice t).toList.head? = some c →
      c ≠ '[' ∧ isParamByte c = false ∧ isInterByte c = false ∧ isFinalByte c = false := by
  intro c hch
  rw [timeoutNotice_head] at hch
  injection hch with hch
  subst hch
  decide

/-- C3: when the spawned child has not exited by the effective timeout
(`subprocess.run` raises `TimeoutExpired`, which the OS guarantees happens
no earlier than the timeout itself — hypothesis `helapsed`), `run` does not
raise: it returns a normal `ProcessResult` carrying the reserved exit code
124, the captured partial output, a standard-error text ending in the
appended timeout notice (which survives sanitisation), and a duration of
at least the timeout. -/
theorem claim_C3 (fs : FS) (s : Settings) (root : CanonPath) (live : Env) (spawn : SpawnFn)
    (executable : RawPath) (args : List String) (timeout_seconds : Option Nat)
    (working_dir : Option RawPath) (target : CanonPath) (out err : Option String)
    (elapsed : Nat)
    (hres : resolve_executable fs (Settings.resolved_tool_bin_dir fs root s) executable
      = .ok target)
    (hcwd1 : fs.pathExists (run_cwd fs root working_dir) = true)
    (hcwd2 : fs.isDir (run_cwd fs root working_dir) = true)
    (hspawn : spawn ⟨pathStr target :: args, run_cwd fs root working_dir, _build_env s live,
        effective_timeout s timeout_seconds⟩ = .timedOut out err elapsed)
    (helapsed : 1000 * effective_timeout s timeout_seconds ≤ elapsed) :
    (ProcessRunner.run fs s root live spawn executable args timeout_seconds working_dir).1
      = .ok ⟨pathStr target :: args, 124, _sanitize_output s (_to_text out),
          _sanitize_output s
            (_to_text err ++ timeoutNotice (effective_timeout s timeout_seconds)),
          elapsed⟩
    ∧ (∃ pre, _sanitize_output s
          (_to_text err ++ timeoutNotice (effective_timeout s timeout_seconds))
        = pre ++ timeoutNotice (effective_timeout s timeout_seconds))
    ∧ 1000 * effective_timeout s timeout_seconds ≤ elapsed := by
  refine ⟨?_, ?_, helapsed⟩
  · simp only [ProcessRunner.run, hres]
    rw [if_neg (by simp [hcwd1, hcwd2]), hspawn]
  · rw [_sanitize_output]
    by_cases hstrip : s.tool_strip_ansi_output = true
    · rw [if_neg (by simp [hstrip])]
      refine ⟨String.mk (ansiSub (_to_text err).toList), ?_⟩
      have hdata : (_to_text err ++ timeoutNotice (effective_timeout s timeout_seconds)).toList
          = (_to_text err).toList
            ++ (timeoutNotice (effective_timeout s timeout_seconds)).toList :=
        String.data_append _ _
      rw [hdata, ansiSub_append_blocked (timeoutNotice_escFree _) (timeoutNotice_blocked _)]
      rfl
    · rw [if_pos (by simp_all)]
      exact ⟨_to_text err, rfl⟩

unseal ansiSub in
/-- Witness for C3: the sample tool `sleepy`, run with a 1 s timeout
against a spawner that times out 20 ms past the deadline, yields exit code
124, the partial standard output, the timeout notice on standard error and
a 1020 ms duration. -/
theorem claim_C3_witness :
    (ProcessRunner.run sampleFS sampleSettings sampleRoot sampleLive sleepySpawn
        ⟨false, ["sleepy"]⟩ [] (some 1) none).1
      = .ok ⟨["/root/proj/tools/bin/sleepy"], 124, "partial out",
          "\nProcess timed out after 1 seconds.", 1020⟩ :=
  ((claim_C3 sampleFS sampleSettings sampleRoot sampleLive sleepySpawn
      ⟨false, ["sleepy"]⟩ [] (some 1) none ["root", "proj", "tools", "bin", "sleepy"]
      (some "partial out") none 1020 (by decide) (by decide) (by decide) (by decide)
      (by decide)).1).trans (by decide)

theorem ansiSub_idem_of_le_one_esc {x : List Char}
    (h : x.countP (· == escChar) ≤ 1) : ansiSub (ansiSub x) = ansiSub x := by
  induction x with
  | nil => rw [ansiSub_nil, ansiSub_nil]
  | cons c rest ih =>
    by_cases hc : c = escChar
    · subst hc
      have hrest : rest.countP (· == escChar) = 0 := by
        rw [@List.countP_cons_of_pos Char (· == escChar) escChar rest (by simp)] at h
        omega
      have hfree : ∀ d ∈ rest, d ≠ escChar := by
        intro d hd
        have hnp := List.countP_eq_zero.mp hrest d hd
        simpa using hnp
      rcases hcs : csiTail rest with _ | r
      · rw [ansiSub_cons_esc_none hcs, ansiSub_of_escFree hfree,
          ansiSub_cons_esc_none hcs, ansiSub_of_escFree hfree]
      · have hrfree : ∀ d ∈ r, d ≠ escChar :=
          fun d hd => hfree d ((csiTail_sublist hcs).subset hd)
        rw [ansiSub_cons_esc_some hcs, ansiSub_of_escFree hrfree, ansiSub_of_escFree hrfree]
    · have hle : rest.countP (· == escChar) ≤ 1 := by
        rw [@List.countP_cons_of_neg Char (· == escChar) c rest (by simp [hc])] at h
        exact h
      rw [ansiSub_cons_ne c rest hc, ansiSub_cons_ne c _ hc, ih hle]

unseal ansiSub in
/-- Counterexample for C4: with sanitisation enabled, the input
`ESC [ ESC [ m m` sanitises to `ESC [ m` — deleting the inner escape
sequence splices together a new one — and a second pass deletes it, so
`sanitize (sanitize x) ≠ sanitize x`.  This refutes the claimed
idempotence of the sanitizer. -/
theorem claim_C4_cex :
    ¬(_sanitize_output sampleSettings
        (_sanitize_output sampleSettings (String.mk [escChar, '[', escChar, '[', 'm', 'm']))
      = _sanitize_output sampleSettings (String.mk [escChar, '[', escChar, '[', 'm', 'm'])) := by
  decide

/-- C4 (amended): when sanitisation is disabled `_sanitize_output` is the
identity, and sanitising text containing no escape sequence returns it
unchanged; sanitising twice equals sanitising once for every input with at
most one escape character, but not in general — deleting a sequence can
splice together a new one (see the counterexample). -/
theorem claim_C4 :
    (∀ (s : Settings) (x : String), s.tool_strip_ansi_output = false →
      _sanitize_output s x = x)
    ∧ (∀ (s : Settings) (x : String), hasCsi x.toList = false → _sanitize_output s x = x)
    ∧ (∀ (s : Settings) (x : String), x.toList.countP (· == escChar) ≤ 1 →
        _sanitize_output s (_sanitize_output s x) = _sanitize_output s x) := by
  refine ⟨?_, ?_, ?_⟩
  · intro s x h
    rw [_sanitize_output, if_pos (by simp [h])]
  · intro s x h
    rw [_sanitize_output]
    by_cases hstrip : s.tool_strip_ansi_output = true
    · rw [if_neg (by simp [hstrip]), hasCsi_false_ansiSub h]
      rfl
    · rw [if_pos (by simp_all)]
  · intro s x h
    simp only [_sanitize_output]
    by_cases hstrip : s.tool_strip_ansi_output = true
    · rw [if_neg (by simp [hstrip]), if_neg (by simp [hstrip])]
      show String.mk (ansiSub (ansiSub x.toList)) = String.mk (ansiSub x.toList)
      rw [ansiSub_idem_of_le_one_esc h]
    · rw [if_pos (by simp_all)]

unseal ansiSub in
/-- Witness for C4: clean text passes through unchanged, and a single
escape sequence is removed idempotently. -/
theorem claim_C4_witness :
    _sanitize_output sampleSettings "plain text" = "plain text"
    ∧ _sanitize_output sampleSettings (_sanitize_output sampleSettings
        (String.mk [escChar, '[', '3', '1', 'm']))
      = _sanitize_output sampleSettings (String.mk [escChar, '[', '3', '1', 'm']) :=
  ⟨claim_C4.2.1 sampleSettings "plain text" (by decide),
   claim_C4.2.2 sampleSettings (String.mk [escChar, '[', '3', '1', 'm']) (by decide)⟩

unseal ansiSub in
/-- Counterexample for C6: a request whose tool completes normally (exit
code 0, here with empty standard output) is answered by the `/tools/run`
handler with HTTP 502, because `run_tool` in `main.py` also requires the
captured standard output to parse as JSON — the requirement is not
specific to `/tools/hci/filter`, contrary to the claim. -/
theorem claim_C6_cex :
    (run_tool sampleFS sampleSettings sampleRoot sampleLive emptySpawn
        (fun _ => (none : Option Unit)) ⟨⟨false, ["echo_args"]⟩, [], none, none⟩).1
      = .httpError 502 "Tool stdout is empty. JSON output is required."
    ∧ (ProcessRunner.run sampleFS sampleSettings sampleRoot sampleLive emptySpawn
        ⟨false, ["echo_args"]⟩ [] none none).1
      = .ok ⟨["/root/proj/tools/bin/echo_args"], 0, "", "", 3⟩ := by
  constructor <;> decide

/-- C6 (amended): `POST /tools/run` maps `ExecutableNotFoundError` to 404
and both `UnsafeExecutablePathError` and the invalid-working-directory
`ValueError` to 400; for completed executions it — exactly like
`/tools/hci/filter` — requires the captured standard output to parse as
JSON, answering 502 otherwise, and on success returns a body
`{executable, command[], exit_code, output, stderr, duration_ms}` whose
`output` is the parsed JSON value (not the raw stdout text). -/
theorem claim_C6 {J : Type} (fs : FS) (s : Settings) (root : CanonPath) (live : Env)
    (spawn : SpawnFn) (jsonParse : String → Option J) (p : ToolExecutionRequest) :
    ((ProcessRunner.run fs s root live spawn p.executable p.args p.timeout_seconds
        p.working_dir).1 = .error .executableNotFound →
      (run_tool fs s root live spawn jsonParse p).1
        = .httpError 404 "Executable not found.")
    ∧ ((ProcessRunner.run fs s root live spawn p.executable p.args p.timeout_seconds
        p.working_dir).1 = .error .unsafeExecutablePath →
      (run_tool fs s root live spawn jsonParse p).1
        = .httpError 400 "Executable must be inside the configured bin directory.")
    ∧ (∀ cwd, (ProcessRunner.run fs s root live spawn p.executable p.args p.timeout_seconds
        p.working_dir).1 = .error (.invalidWorkingDir cwd) →
      (run_tool fs s root live spawn jsonParse p).1
        = .httpError 400 "Invalid working directory.")
    ∧ (∀ r msg, (ProcessRunner.run fs s root live spawn p.executable p.args p.timeout_seconds
        p.working_dir).1 = .ok r → _try_parse_json jsonParse r.stdout = .error msg →
      (run_tool fs s root live spawn jsonParse p).1 = .httpError 502 msg)
    ∧ (∀ r v, (ProcessRunner.run fs s root live spawn p.executable p.args p.timeout_seconds
        p.working_dir).1 = .ok r → _try_parse_json jsonParse r.stdout = .ok v →
      (run_tool fs s root live spawn jsonParse p).1
        = .ok ⟨rawPathStr p.executable, r.command, r.exit_code, v, r.stderr,
            r.duration_ms⟩) := by
  rcases hrun : ProcessRunner.run fs s root live spawn p.executable p.args p.timeout_seconds
      p.working_dir with ⟨res, trace⟩
  refine ⟨?_, ?_, ?_, ?_, ?_⟩
  · intro h
    simp at h
    simp only [run_tool, hrun, h]
  · intro h
    simp at h
    simp only [run_tool, hrun, h]
  · intro cwd h
    simp at h
    simp only [run_tool, hrun, h]
  · intro r msg h hp
    simp at h
    simp only [run_tool, hrun, h, hp]
  · intro r v h hp
    simp at h
    simp only [run_tool, hrun, h, hp]

unseal ansiSub in
/-- Witness for C6: a missing tool yields 404, and a tool that prints a
JSON document yields the success body with the parsed value in `output`. -/
theorem claim_C6_witness :
    (run_tool sampleFS sampleSettings sampleRoot sampleLive emptySpawn
        (fun _ => (none : Option Unit)) ⟨⟨false, ["nope"]⟩, [], none, none⟩).1
      = .httpError 404 "Executable not found."
    ∧ (run_tool sampleFS sampleSettings sampleRoot sampleLive jsonSpawn
        (fun t => if t = "[1, 2]" then some () else none)
        ⟨⟨false, ["echo_args"]⟩, [], none, none⟩).1
      = .ok ⟨"echo_args", ["/root/proj/tools/bin/echo_args"], 0, (), "", 5⟩ :=
  ⟨(claim_C6 sampleFS sampleSettings sampleRoot sampleLive emptySpawn
      (fun _ => (none : Option Unit)) ⟨⟨false, ["nope"]⟩, [], none, none⟩).1 (by decide),
   (claim_C6 sampleFS sampleSettings sampleRoot sampleLive jsonSpawn
      (fun t => if t = "[1, 2]" then some () else none)
      ⟨⟨false, ["echo_args"]⟩, [], none, none⟩).2.2.2.2
      ⟨["/root/proj/tools/bin/echo_args"], 0, "[1, 2]", "", 5⟩ () (by decide) (by decide)⟩
